import Mathlib

/-!
Verification development for the clickorm repository.

This file shallowly embeds the pure core of the library — the type mapper
(src/utils/type-mapper.ts), the WHERE-clause condition compiler
(src/query/where.ts together with the type guards in src/core/types.ts),
and the validator / schema construction layer (src/utils/validator.ts,
src/core/schema.ts) — as executable Lean definitions, and proves the
specification claims about them.

JavaScript run-time values are modelled by the inductive type `JSValue`;
JS numbers are modelled by `Rat` (exact for every integral and decimal
value the library manipulates) plus a distinguished `nan` constructor,
since the claims under verification never depend on floating-point
rounding.  Booleans such as `nullable` that the source reads with JS
truthiness from `boolean | undefined` fields are modelled as `Bool`
(undefined ↦ false); numeric option fields read with `x || d` defaulting
are modelled as `Option Nat` with the JS falsiness of 0 made explicit at
each use site.  Thrown exceptions are modelled with `Except`.
-/

namespace ClickORM

/-- The `DataType` enum of src/core/types.ts. -/
inductive DataType where
  | UInt8 | UInt16 | UInt32 | UInt64
  | Int8 | Int16 | Int32 | Int64
  | Float32 | Float64 | Decimal
  | String | FixedString
  | Date | Date32 | DateTime | DateTime64
  | Boolean
  | UUID
  | Enum8 | Enum16
  | Array | Tuple | Map | Nested | JSON
  | Nullable | LowCardinality | IPv4 | IPv6
deriving DecidableEq, Repr

/-- The string value each `DataType` enum member carries in the source
(used by the `default` branch of `getClickHouseType`, where
`typeStr = baseType`). -/
def dataTypeName : DataType → String
  | .UInt8 => "UInt8"
  | .UInt16 => "UInt16"
  | .UInt32 => "UInt32"
  | .UInt64 => "UInt64"
  | .Int8 => "Int8"
  | .Int16 => "Int16"
  | .Int32 => "Int32"
  | .Int64 => "Int64"
  | .Float32 => "Float32"
  | .Float64 => "Float64"
  | .Decimal => "Decimal"
  | .String => "String"
  | .FixedString => "FixedString"
  | .Date => "Date"
  | .Date32 => "Date32"
  | .DateTime => "DateTime"
  | .DateTime64 => "DateTime64"
  | .Boolean => "Boolean"
  | .UUID => "UUID"
  | .Enum8 => "Enum8"
  | .Enum16 => "Enum16"
  | .Array => "Array"
  | .Tuple => "Tuple"
  | .Map => "Map"
  | .Nested => "Nested"
  | .JSON => "JSON"
  | .Nullable => "Nullable"
  | .LowCardinality => "LowCardinality"
  | .IPv4 => "IPv4"
  | .IPv6 => "IPv6"

/-- A JavaScript run-time value, as far as the embedded code inspects one.
`num` is a finite JS number (exact rational model), `nan` is NaN (which
still has `typeof === "number"`), `date` is a `Date` object carrying its
epoch milliseconds, `obj` is a plain object as an insertion-ordered list
of own enumerable string-keyed properties. -/
inductive JSValue where
  | null
  | undefined
  | num (q : Rat)
  | nan
  | bigint (i : Int)
  | str (s : String)
  | bool (b : Bool)
  | date (ms : Int)
  | arr (xs : List JSValue)
  | obj (fields : List (String × JSValue))
deriving Repr

/-- The JS `typeof` operator on a modelled value (`typeof null` is
`"object"` in JavaScript). -/
def typeofVal : JSValue → String
  | .null => "object"
  | .undefined => "undefined"
  | .num _ => "number"
  | .nan => "number"
  | .bigint _ => "bigint"
  | .str _ => "string"
  | .bool _ => "boolean"
  | .date _ => "object"
  | .arr _ => "object"
  | .obj _ => "object"

/-- JS truthiness of a modelled value. -/
def truthy : JSValue → Bool
  | .null => false
  | .undefined => false
  | .num q => q != 0
  | .nan => false
  | .bigint i => i != 0
  | .str s => s != ""
  | .bool b => b
  | .date _ => true
  | .arr _ => true
  | .obj _ => true

/-- `value === null || value === undefined`. -/
def isNullish : JSValue → Bool
  | .null => true
  | .undefined => true
  | _ => false

/-- The `ColumnDefinition` interface of src/core/types.ts, restricted to
the fields the verified operations read.  (`default`, `comment` and
`unique` are carried by the source interface but are not read by any
function embedded here.)  Optional boolean flags are modelled as `Bool`
with `false` standing for both `false` and `undefined`, matching every
truthiness read in the source. -/
structure ColumnDefinition where
  type : DataType
  nullable : Bool := false
  primaryKey : Bool := false
  autoIncrement : Bool := false
  elementType : Option DataType := none
  precision : Option Nat := none
  scale : Option Nat := none
  length : Option Nat := none
  enumValues : Option (List String) := none
deriving DecidableEq, Repr

/-- JS `x || d` over an optional numeric field: `undefined` and `0` are
falsy and yield the default. -/
def numOr (x : Option Nat) (d : Nat) : Nat :=
  match x with
  | none => d
  | some n => if n = 0 then d else n

/-- A single quote character, for rendering enum definitions. -/
def sq : String := "\x27"

/-- Renders one enum member list: each value single-quoted with a
1-based sequential ordinal in declaration order, joined by a comma and
space (the map-join in the Enum arm of getClickHouseType). -/
def enumDef (vs : List String) : String :=
  String.intercalate ", "
    (vs.enum.map (fun p => sq ++ p.2 ++ sq ++ " = " ++ toString (p.1 + 1)))

/-- `getClickHouseType` of src/utils/type-mapper.ts (lines 59-117).
Returns the rendered ClickHouse type string, or the message of the
`TypeMappingError` the source throws. -/
def getClickHouseType (column : ColumnDefinition) : Except String String :=
  let base : Except String String :=
    match column.type with
    | .FixedString =>
      .ok ("FixedString(" ++ toString (numOr column.length 255) ++ ")")
    | .Decimal =>
      .ok ("Decimal(" ++ toString (numOr column.precision 10) ++ ", " ++
           toString (numOr column.scale 2) ++ ")")
    | .DateTime64 =>
      .ok ("DateTime64(" ++ toString (numOr column.precision 3) ++ ")")
    | .Array =>
      match column.elementType with
      | none => .error "Array type requires elementType"
      | some et => .ok ("Array(" ++ dataTypeName et ++ ")")
    | .LowCardinality =>
      match column.elementType with
      | none => .error "LowCardinality type requires elementType"
      | some et => .ok ("LowCardinality(" ++ dataTypeName et ++ ")")
    | .Enum8 =>
      match column.enumValues with
      | none => .error "Enum type requires enumValues"
      | some vs =>
        if vs.length = 0 then .error "Enum type requires enumValues"
        else .ok ("Enum8(" ++ enumDef vs ++ ")")
    | .Enum16 =>
      match column.enumValues with
      | none => .error "Enum type requires enumValues"
      | some vs =>
        if vs.length = 0 then .error "Enum type requires enumValues"
        else .ok ("Enum16(" ++ enumDef vs ++ ")")
    | t => .ok (dataTypeName t)
  base.map
    (fun typeStr => if column.nullable then "Nullable(" ++ typeStr ++ ")" else typeStr)

/-- The `isInteger` helper of src/utils/type-mapper.ts: typeof the
value is number, and Number.isInteger holds of it. -/
def isIntegerVal : JSValue → Bool
  | .num q => q.den == 1
  | _ => false

/-- `isInteger(value) && Number(value) >= lo && Number(value) <= hi`:
the bit-width range check shared by the 8/16/32-bit integer branches of
`validateValue`.  `Number(value)` is only reached when `isInteger` holds,
so the value is a `num` with denominator 1. -/
def intInRange (v : JSValue) (lo hi : Int) : Bool :=
  match v with
  | .num q => q.den == 1 && (lo : Rat) ≤ q && q ≤ (hi : Rat)
  | _ => false

/-- `validateValue` of src/utils/type-mapper.ts (lines 257-342).
`dateParsable` abstracts the host expression
`!isNaN(Date.parse(String(value)))` of the date branch (a pure predicate
on the value; every theorem below holds for all choices of it).
The `Except` error is the message of the thrown `TypeMappingError`. -/
def validateValue (dateParsable : JSValue → Bool) (value : JSValue)
    (column : ColumnDefinition) : Except String Bool :=
  if isNullish value then
    if !column.nullable then
      .error "Value cannot be null for non-nullable column"
    else
      .ok true
  else
    .ok (match column.type with
      | .UInt8 => intInRange value 0 255
      | .UInt16 => intInRange value 0 65535
      | .UInt32 => intInRange value 0 4294967295
      | .Int8 => intInRange value (-128) 127
      | .Int16 => intInRange value (-32768) 32767
      | .Int32 => intInRange value (-2147483648) 2147483647
      | .Float32 | .Float64 | .Decimal =>
        -- typeof the value is number and it is not NaN
        (match value with | .num _ => true | _ => false)
      | .Int64 | .UInt64 =>
        typeofVal value == "bigint" || typeofVal value == "number"
      | .Boolean => (match value with | .bool _ => true | _ => false)
      | .String | .FixedString | .UUID | .IPv4 | .IPv6 =>
        (match value with
          | .str s =>
            -- `if (column.type === FixedString && column.length)`: the
            -- length bound applies only when `length` is truthy
            if column.type = .FixedString then
              match column.length with
              | some l => if l ≠ 0 then decide (s.length ≤ l) else true
              | none => true
            else true
          | _ => false)
      | .Date | .Date32 | .DateTime | .DateTime64 =>
        (match value with | .date _ => true | _ => dateParsable value)
      | .Array => (match value with | .arr _ => true | _ => false)
      | .JSON | .Map =>
        -- typeof the value is object and it is non-null (null returned early)
        typeofVal value == "object"
      | .Enum8 | .Enum16 =>
        (match value with
          | .str s =>
            match column.enumValues with
            | some vs => vs.contains s
            | none => true
          | _ => false)
      | _ => true)

/-- `Number.MAX_SAFE_INTEGER`. -/
def maxSafeInteger : Int := 2 ^ 53 - 1

/-- `Number.MIN_SAFE_INTEGER`. -/
def minSafeInteger : Int := -(2 ^ 53 - 1)

/-- The `UInt64`/`Int64` branch of `fromClickHouseValue`
(src/utils/type-mapper.ts lines 200-208).  The source first coerces the
non-null wire value to a bigint (a bigint passes through, anything else
goes through BigInt — exact for bigint inputs and for the integral numbers and
decimal strings ClickHouse sends for these kinds); we model the coerced
arbitrary-precision integer directly.  Within the safe-integer window
`Number(bigintVal)` is exact, which the `num`/`Rat` model reflects. -/
def fromClickHouseValueInt64 (bigintVal : Int) : JSValue :=
  if bigintVal ≤ maxSafeInteger ∧ minSafeInteger ≤ bigintVal then
    .num (bigintVal : Rat)
  else
    .bigint bigintVal

/-- `isValidIdentifier` of src/utils/validator.ts: the regex
`^[a-zA-Z_][a-zA-Z0-9_]*$` — must start with an ASCII letter or
underscore and contain only ASCII letters, digits and underscores. -/
def isValidIdentifier (s : String) : Bool :=
  match s.toList with
  | [] => false
  | c :: rest =>
    (c.isAlpha || c = '_') && rest.all (fun d => d.isAlphanum || d = '_')

/-- Errors of the condition compiler: `validation msg` models a thrown
`ValidationError` (carrying its message) and `hostTypeError` models the
host `TypeError` raised when a logical combinator receives a non-array
child list (`value.map is not a function`) or `Object.entries` is applied
to `null`/`undefined`. -/
inductive WErr where
  | validation (msg : String)
  | hostTypeError
deriving DecidableEq, Repr

/-- The fixed operator vocabulary of `isWhereOperator`
(src/core/types.ts lines 442-457). -/
def validOperatorKeys : List String :=
  ["eq", "ne", "gt", "gte", "lt", "lte", "in", "notIn",
   "like", "notLike", "ilike", "between", "isNull", "notNull"]

/-- The logical-combinator keys recognised by `processCondition`
(src/query/where.ts lines 59-77). -/
def logicalOperatorKeys : List String :=
  ["and", "$and", "or", "$or", "not", "$not"]

/-- `Object.keys` of a modelled value: own enumerable string keys
(objects yield their property names, arrays their index strings, all
other values none). -/
def jsKeys : JSValue → List String
  | .obj fs => fs.map Prod.fst
  | .arr xs => (List.range xs.length).map toString
  | _ => []

/-- `isWhereOperator` of src/core/types.ts (lines 438-459): any non-null
value whose typeof is object, with at least one own key in the operator
vocabulary. -/
def isWhereOperator (v : JSValue) : Bool :=
  if typeofVal v != "object" || (match v with | .null => true | _ => false) then
    false
  else
    (jsKeys v).any (fun key => validOperatorKeys.contains key)

/-- `isRawExpression` of src/core/types.ts (lines 426-433): a non-null
object whose `_brand` property is the string `RawExpression`. -/
def isRawExpression (v : JSValue) : Bool :=
  match v with
  | .obj fs =>
    match fs.lookup "_brand" with
    | some (.str s) => s == "RawExpression"
    | _ => false
  | _ => false

/-- `(value as RawExpression).sql`: the `sql` property of a raw
expression.  A missing or non-string `sql` reads as `undefined`, which
the caller drops through its truthiness check exactly as it drops an
empty string, so both are modelled as `""`. -/
def rawSql : JSValue → String
  | .obj fs =>
    (match fs.lookup "sql" with
      | some (.str s) => s
      | _ => "")
  | _ => ""

/-- Modelled from the spec: the identifier-quoting utility of
src/utils/sql-builder.ts (`SQLBuilder.identifier`), whose source file is
not present under src/.  Per the spec it "fails closed (rejects) on any
value not matching the identifier grammar" `^[A-Za-z_][A-Za-z0-9_]*$`
(the SQL-injection defence for field names) and "identifiers in
generated SQL are always emitted backtick-quoted"; the tests of the
repository assert the backtick-quoted form. -/
def identifier (s : String) : Except WErr String :=
  if isValidIdentifier s then
    .ok ("`" ++ s ++ "`")
  else
    .error (.validation ("Invalid SQL identifier: " ++ s))

/-- Entries of a plain object (`Object.entries` on the operator-set
path, where the classified value is always a plain object). -/
def objEntries : JSValue → List (String × JSValue)
  | .obj fs => fs
  | _ => []

/-- `WhereBuilder.inferParamType` (src/query/where.ts lines 241-268). -/
def inferParamType : JSValue → String
  | .null => "Nullable(String)"
  | .undefined => "Nullable(String)"
  | .num q => if q.den == 1 then "Int32" else "Float64"
  | .nan => "Float64"
  | .bigint _ => "Int64"
  | .str _ => "String"
  | .bool _ => "UInt8"
  | .date _ => "DateTime"
  | .arr _ => "Array(String)"
  | .obj _ => "String"

/-- The mutable compiler state of a `WhereBuilder`: the running
parameter counter and the insertion-ordered parameter map. -/
structure WhereState where
  counter : Nat
  params : List (String × JSValue)
deriving Repr

/-- `WhereBuilder.addParam` (src/query/where.ts lines 232-236): binds
the value under the next sequential name and returns the typed
placeholder `{paramN:Type}`. -/
def addParam (value : JSValue) (st : WhereState) : String × WhereState :=
  let paramName := "param" ++ toString st.counter
  ("\x7b" ++ paramName ++ ":" ++ inferParamType value ++ "\x7d",
   ⟨st.counter + 1, st.params ++ [(paramName, value)]⟩)

/-- `value.map((v) => this.addParam(v))` for `in`/`notIn` arrays. -/
def addParams : List JSValue → WhereState → List String × WhereState
  | [], st => ([], st)
  | x :: rest, st =>
    let (p, st1) := addParam x st
    let (ps, st2) := addParams rest st1
    (p :: ps, st2)

/-- One `case` arm of `WhereBuilder.processOperators`
(src/query/where.ts lines 122-223): compiles a single operator entry to
its SQL fragment, threading the parameter state, or raises the
`ValidationError` the source throws. -/
def processOneOperator (fieldName : String) (op : String) (v : JSValue)
    (st : WhereState) : Except WErr (String × WhereState) :=
  if op = "eq" then
    match v with
    | .null => .ok (fieldName ++ " IS NULL", st)
    | _ => let (p, st1) := addParam v st; .ok (fieldName ++ " = " ++ p, st1)
  else if op = "ne" then
    match v with
    | .null => .ok (fieldName ++ " IS NOT NULL", st)
    | _ => let (p, st1) := addParam v st; .ok (fieldName ++ " != " ++ p, st1)
  else if op = "gt" then
    let (p, st1) := addParam v st; .ok (fieldName ++ " > " ++ p, st1)
  else if op = "gte" then
    let (p, st1) := addParam v st; .ok (fieldName ++ " >= " ++ p, st1)
  else if op = "lt" then
    let (p, st1) := addParam v st; .ok (fieldName ++ " < " ++ p, st1)
  else if op = "lte" then
    let (p, st1) := addParam v st; .ok (fieldName ++ " <= " ++ p, st1)
  else if op = "in" then
    match v with
    | .arr xs =>
      if xs.length = 0 then .ok ("1=0", st)
      else
        let (ps, st1) := addParams xs st
        .ok (fieldName ++ " IN (" ++ String.intercalate ", " ps ++ ")", st1)
    | _ => .error (.validation "IN operator requires an array")
  else if op = "notIn" then
    match v with
    | .arr xs =>
      if xs.length = 0 then .ok ("1=1", st)
      else
        let (ps, st1) := addParams xs st
        .ok (fieldName ++ " NOT IN (" ++ String.intercalate ", " ps ++ ")", st1)
    | _ => .error (.validation "NOT IN operator requires an array")
  else if op = "like" then
    let (p, st1) := addParam v st; .ok (fieldName ++ " LIKE " ++ p, st1)
  else if op = "notLike" then
    let (p, st1) := addParam v st; .ok (fieldName ++ " NOT LIKE " ++ p, st1)
  else if op = "ilike" then
    let (p, st1) := addParam v st; .ok (fieldName ++ " ILIKE " ++ p, st1)
  else if op = "between" then
    match v with
    | .arr [a, b] =>
      let (p0, st1) := addParam a st
      let (p1, st2) := addParam b st1
      .ok (fieldName ++ " BETWEEN " ++ p0 ++ " AND " ++ p1, st2)
    | _ => .error (.validation "BETWEEN operator requires an array of 2 values")
  else if op = "isNull" then
    .ok (fieldName ++ (if truthy v then " IS NULL" else " IS NOT NULL"), st)
  else if op = "notNull" then
    .ok (fieldName ++ (if truthy v then " IS NOT NULL" else " IS NULL"), st)
  else
    .error (.validation ("Unknown operator: " ++ op))

/-- The entry loop of `WhereBuilder.processOperators`: each operator
entry pushes exactly one fragment; the caller joins them with AND. -/
def processOperators (fieldName : String) :
    List (String × JSValue) → WhereState → Except WErr (List String × WhereState)
  | [], st => .ok ([], st)
  | (op, v) :: rest, st =>
    match processOneOperator fieldName op v st with
    | .error e => .error e
    | .ok (part, st1) =>
      match processOperators fieldName rest st1 with
      | .error e => .error e
      | .ok (parts, st2) => .ok (part :: parts, st2)

/-- `WhereBuilder.processFieldCondition` (src/query/where.ts lines
93-114): quote the field name, then dispatch on the value shape — raw
expression first, then null/undefined, then operator set, else simple
equality. -/
def processFieldCondition (field : String) (value : JSValue)
    (st : WhereState) : Except WErr (String × WhereState) :=
  match identifier field with
  | .error e => .error e
  | .ok fieldName =>
    if isRawExpression value then
      .ok (rawSql value, st)
    else if isNullish value then
      .ok (fieldName ++ " IS NULL", st)
    else if isWhereOperator value then
      match processOperators fieldName (objEntries value) st with
      | .error e => .error e
      | .ok (parts, st1) => .ok (String.intercalate " AND " parts, st1)
    else
      let (p, st1) := addParam value st
      .ok (fieldName ++ " = " ++ p, st1)

mutual

/-- `WhereBuilder.processCondition` (src/query/where.ts lines 54-88):
iterates `Object.entries` of the condition and joins the non-empty parts
with AND.  Non-object conditions follow `Object.entries` semantics: an
array or a non-empty string yields index-keyed entries whose first key
`"0"` immediately fails identifier validation inside
`processFieldCondition`; other primitives yield no entries;
`null`/`undefined` make `Object.entries` throw. -/
def processCondition : JSValue → WhereState → Except WErr (String × WhereState)
  | .obj fields, st =>
    (match processEntries fields st with
      | .error e => .error e
      | .ok (parts, st1) => .ok (String.intercalate " AND " parts, st1))
  | .arr xs, st =>
    (match xs with
      | [] => .ok ("", st)
      | x :: _ => processFieldCondition "0" x st)
  | .str s, st =>
    (match s.toList with
      | [] => .ok ("", st)
      | c :: _ => processFieldCondition "0" (.str (String.mk [c])) st)
  | .null, _ => .error .hostTypeError
  | .undefined, _ => .error .hostTypeError
  | _, st => .ok ("", st)

/-- The entry loop of `processCondition`: logical combinators compile
their children (dropping empty results, parenthesising non-empty
groups), every other key is a field condition kept only when its
compiled fragment is truthy (non-empty). -/
def processEntries : List (String × JSValue) → WhereState → Except WErr (List String × WhereState)
  | [], st => .ok ([], st)
  | (key, value) :: rest, st =>
    if key = "and" ∨ key = "$and" then
      match value with
      | .arr xs =>
        (match processList xs st with
          | .error e => .error e
          | .ok (children, st1) =>
            let conds := children.filter (fun c => c ≠ "")
            match processEntries rest st1 with
            | .error e => .error e
            | .ok (parts, st2) =>
              .ok ((if conds.length > 0 then
                      ["(" ++ String.intercalate " AND " conds ++ ")"]
                    else []) ++ parts, st2))
      | _ => .error .hostTypeError
    else if key = "or" ∨ key = "$or" then
      match value with
      | .arr xs =>
        (match processList xs st with
          | .error e => .error e
          | .ok (children, st1) =>
            let conds := children.filter (fun c => c ≠ "")
            match processEntries rest st1 with
            | .error e => .error e
            | .ok (parts, st2) =>
              .ok ((if conds.length > 0 then
                      ["(" ++ String.intercalate " OR " conds ++ ")"]
                    else []) ++ parts, st2))
      | _ => .error .hostTypeError
    else if key = "not" ∨ key = "$not" then
      match processCondition value st with
      | .error e => .error e
      | .ok (notCondition, st1) =>
        match processEntries rest st1 with
        | .error e => .error e
        | .ok (parts, st2) =>
          .ok ((if notCondition ≠ "" then ["NOT (" ++ notCondition ++ ")"]
                else []) ++ parts, st2)
    else
      match processFieldCondition key value st with
      | .error e => .error e
      | .ok (fc, st1) =>
        match processEntries rest st1 with
        | .error e => .error e
        | .ok (parts, st2) =>
          .ok ((if fc ≠ "" then [fc] else []) ++ parts, st2)

/-- The map of `processCondition` over the child list of a logical
combinator, threading the parameter state through every child. -/
def processList : List JSValue → WhereState → Except WErr (List String × WhereState)
  | [], st => .ok ([], st)
  | x :: rest, st =>
    match processCondition x st with
    | .error e => .error e
    | .ok (c, st1) =>
      match processList rest st1 with
      | .error e => .error e
      | .ok (cs, st2) => .ok (c :: cs, st2)

end

/-- `WhereBuilder.build` (src/query/where.ts lines 36-49): resets the
parameter map and counter to the caller-supplied starting offset,
compiles the tree, and falls back to the literal `1=1` when the compiled
SQL is empty. -/
def build (startingParamCount : Nat) (condition : JSValue) :
    Except WErr (String × List (String × JSValue)) :=
  match processCondition condition ⟨startingParamCount, []⟩ with
  | .error e => .error e
  | .ok (sql, st) => .ok ((if sql = "" then "1=1" else sql), st.params)

/-- A schema definition: the insertion-ordered mapping from column name
to column definition (`SchemaDefinition` of src/core/types.ts).  JS
object keys are unique; the list-of-pairs embedding reads keys with
first-occurrence lookup exactly as property access in the source
does. -/
abbrev SchemaDef := List (String × ColumnDefinition)

/-- The integer kinds accepted for `autoIncrement`
(src/utils/validator.ts lines 118-127). -/
def integerTypes : List DataType :=
  [.UInt8, .UInt16, .UInt32, .UInt64, .Int8, .Int16, .Int32, .Int64]

/-- `validateColumnDefinition` of src/utils/validator.ts (lines 45-135).
(The initial guard of the source on a missing `type` property detects a
structurally absent field and has no counterpart in the typed model.)
The `Except` error
carries the thrown `ValidationError` message. -/
def validateColumnDefinition (fieldName : String) (column : ColumnDefinition) :
    Except String Unit :=
  if !(isValidIdentifier fieldName) then
    .error ("Invalid field name " ++ sq ++ fieldName ++ sq ++
      ". Field names must start with a letter or underscore and contain only alphanumeric characters and underscores.")
  else
    let typeSpecific : Except String Unit :=
      match column.type with
        | .FixedString =>
          (match column.length with
            | some l =>
              if l = 0 then
                .error ("FixedString column " ++ sq ++ fieldName ++ sq ++
                  " requires a positive length")
              else .ok ()
            | none =>
              .error ("FixedString column " ++ sq ++ fieldName ++ sq ++
                " requires a positive length"))
        | .Decimal =>
          (match column.precision with
            | some p =>
              if p = 0 then
                .error ("Decimal column " ++ sq ++ fieldName ++ sq ++
                  " requires a positive precision")
              else
                match column.scale with
                | some scl =>
                  if scl > p then
                    .error ("Decimal column " ++ sq ++ fieldName ++ sq ++
                      " scale must be between 0 and precision")
                  else .ok ()
                | none => .ok ()
            | none =>
              .error ("Decimal column " ++ sq ++ fieldName ++ sq ++
                " requires a positive precision"))
        | .Array =>
          (match column.elementType with
            | some _ => .ok ()
            | none =>
              .error ("Array column " ++ sq ++ fieldName ++ sq ++
                " requires elementType"))
        | .LowCardinality =>
          (match column.elementType with
            | some _ => .ok ()
            | none =>
              .error ("LowCardinality column " ++ sq ++ fieldName ++ sq ++
                " requires elementType"))
        | .Enum8 =>
          (match column.enumValues with
            | some vs =>
              if vs.length = 0 then
                .error ("Enum column " ++ sq ++ fieldName ++ sq ++
                  " requires enumValues")
              else if vs.length > 256 then
                .error ("Enum8 column " ++ sq ++ fieldName ++ sq ++
                  " cannot have more than 256 values")
              else .ok ()
            | none =>
              .error ("Enum column " ++ sq ++ fieldName ++ sq ++
                " requires enumValues"))
        | .Enum16 =>
          (match column.enumValues with
            | some vs =>
              if vs.length = 0 then
                .error ("Enum column " ++ sq ++ fieldName ++ sq ++
                  " requires enumValues")
              else if vs.length > 65536 then
                .error ("Enum16 column " ++ sq ++ fieldName ++ sq ++
                  " cannot have more than 65536 values")
              else .ok ()
            | none =>
              .error ("Enum column " ++ sq ++ fieldName ++ sq ++
                " requires enumValues"))
        | _ => .ok ()
    match typeSpecific with
    | .error e => .error e
    | .ok _ =>
      if column.primaryKey && column.nullable then
        .error ("Primary key column " ++ sq ++ fieldName ++ sq ++
          " cannot be nullable")
      else if column.autoIncrement && !(integerTypes.contains column.type) then
        .error ("Auto increment is only supported for integer types, but column " ++
          sq ++ fieldName ++ sq ++ " is " ++ dataTypeName column.type)
      else
        .ok ()

/-- The per-column loop at the end of `validateSchema`. -/
def validateColumns : SchemaDef → Except String Unit
  | [] => .ok ()
  | (fieldName, column) :: rest =>
    match validateColumnDefinition fieldName column with
    | .error e => .error e
    | .ok _ => validateColumns rest

/-- `validateSchema` of src/utils/validator.ts (lines 21-40): non-empty
field set, at most one primary key (the error message lists every
offending field name), then each column individually valid. -/
def validateSchema (schema : SchemaDef) : Except String Unit :=
  if schema.length = 0 then
    .error "Schema must have at least one field"
  else
    let primaryKeys := (schema.filter (fun p => p.2.primaryKey)).map Prod.fst
    if primaryKeys.length > 1 then
      .error ("Multiple primary keys found: " ++
        String.intercalate ", " primaryKeys ++
        ". Only one primary key is allowed.")
    else
      validateColumns schema

/-- `validateTableName` of src/utils/validator.ts (lines 242-258). -/
def validateTableName (tableName : String) : Except String Unit :=
  if tableName = "" then
    .error "Table name must be a non-empty string"
  else if !(isValidIdentifier tableName) then
    .error ("Invalid table name " ++ sq ++ tableName ++ sq ++
      ". Table names must start with a letter or underscore and contain only alphanumeric characters and underscores.")
  else if tableName.length > 64 then
    .error ("Table name " ++ sq ++ tableName ++ sq ++
      " is too long. Maximum length is 64 characters.")
  else
    .ok ()

/-- The constructed `TableSchema` object (src/core/schema.ts lines 15-34). -/
structure TableSchema where
  name : String
  schema : SchemaDef
  columnNames : List String
  primaryKeyColumn : Option String
deriving Repr

/-- The `TableSchema` constructor (src/core/schema.ts lines 21-34): it
synchronously runs `validateTableName` then `validateSchema` — a thrown
validation error aborts construction, so no schema object exists on any
violation — and otherwise records the column names and the first
primary-key column. -/
def mkTableSchema (name : String) (schema : SchemaDef) :
    Except String TableSchema :=
  match validateTableName name with
  | .error e => .error e
  | .ok _ =>
    match validateSchema schema with
    | .error e => .error e
    | .ok _ =>
      let columnNames := schema.map Prod.fst
      let primaryKeys := columnNames.filter
        (fun col => (((schema.lookup col).map (fun c => c.primaryKey)).getD false))
      .ok { name := name, schema := schema, columnNames := columnNames,
            primaryKeyColumn := primaryKeys.head? }

/-- The unknown-field loop shared by `validateData` and
`validatePartialData` (src/utils/validator.ts): every key of the record
must exist in the schema. -/
def checkUnknownFields (data : List (String × JSValue)) (schema : SchemaDef) :
    Except String Unit :=
  match data with
  | [] => .ok ()
  | (field, _) :: rest =>
    if (schema.lookup field).isSome then
      checkUnknownFields rest schema
    else
      .error ("Unknown field " ++ sq ++ field ++ sq)

/-- The per-field loop of `validatePartialData` (src/utils/validator.ts
lines 202-227): a schema-missing column is skipped (`if (!column)
continue`), a primary-key column fails outright, and a non-null value
must pass `validateValue` for its column; null/undefined values are
skipped entirely. -/
def validatePartialEntries (dateParsable : JSValue → Bool) :
    List (String × JSValue) → SchemaDef → Except String Unit
  | [], _ => .ok ()
  | (fieldName, value) :: rest, schema =>
    match schema.lookup fieldName with
    | none => validatePartialEntries dateParsable rest schema
    | some column =>
      if column.primaryKey then
        .error ("Cannot update primary key field " ++ sq ++ fieldName ++ sq)
      else if !(isNullish value) then
        match validateValue dateParsable value column with
        | .error e => .error e
        | .ok true => validatePartialEntries dateParsable rest schema
        | .ok false =>
          .error ("Invalid value for field " ++ sq ++ fieldName ++ sq ++
            ": expected " ++ dataTypeName column.type)
      else
        validatePartialEntries dateParsable rest schema

/-- `validatePartialData` of src/utils/validator.ts (lines 187-228). -/
def validatePartialData (dateParsable : JSValue → Bool)
    (data : List (String × JSValue)) (schema : SchemaDef) :
    Except String Unit :=
  match checkUnknownFields data schema with
  | .error e => .error e
  | .ok _ => validatePartialEntries dateParsable data schema

/-- Whether an `Except` result is an error (a thrown exception in the
embedded code). -/
def isError {ε α : Type} : Except ε α → Bool
  | .error _ => true
  | .ok _ => false

/-! ## Theorems -/

theorem isError_eq_false_of_ok {ε α : Type} (e : Except ε α)
    (h : ∃ a, e = .ok a) : isError e = false := by
  obtain ⟨a, rfl⟩ := h
  rfl

/-- C9: for the empty condition tree (an object with no entries),
`build()` returns the literal always-true predicate `1=1` together with
an empty parameter map, for every starting parameter offset. -/
theorem build_empty_tree (start : Nat) :
    build start (.obj []) = .ok ("1=1", []) := rfl

/-- C1 counterexample: `getClickHouseType` does not fail when
`FixedString` lacks `length`, `Decimal` lacks `precision`/`scale`, or
`DateTime64` lacks `precision`; it silently renders substituted defaults
`255`, `(10, 2)` and `3`, refuting the claim that every parameterized
kind fails when its required parameter is absent. -/
theorem renderType_substitutes_defaults :
    getClickHouseType { type := .FixedString } = .ok "FixedString(255)" ∧
    getClickHouseType { type := .Decimal } = .ok "Decimal(10, 2)" ∧
    getClickHouseType { type := .DateTime64 } = .ok "DateTime64(3)" :=
  ⟨rfl, rfl, rfl⟩

/-- C1 (amended): `getClickHouseType` fails with a type-mapping error
exactly when an `Array` or `LowCardinality` column lacks `elementType`,
or an `Enum8`/`Enum16` column has absent or empty `enumValues`;
`FixedString`, `Decimal` and `DateTime64` never fail, rendering
substituted defaults instead. -/
theorem renderType_error_iff (col : ColumnDefinition) :
    isError (getClickHouseType col) = true ↔
      ((col.type = .Array ∨ col.type = .LowCardinality) ∧
        col.elementType = none) ∨
      ((col.type = .Enum8 ∨ col.type = .Enum16) ∧
        (col.enumValues = none ∨ col.enumValues = some [])) := by
  obtain ⟨ty, nullable, pk, ai, et, prec, scl, len, ev⟩ := col
  cases ty
  case Array => cases et <;> simp [getClickHouseType, isError, Except.map]
  case LowCardinality =>
    cases et <;> simp [getClickHouseType, isError, Except.map]
  case Enum8 =>
    cases ev with
    | none => simp [getClickHouseType, isError, Except.map]
    | some vs =>
      by_cases hvs : vs = []
      · subst hvs; simp [getClickHouseType, isError, Except.map]
      · simp [getClickHouseType, isError, Except.map, hvs]
  case Enum16 =>
    cases ev with
    | none => simp [getClickHouseType, isError, Except.map]
    | some vs =>
      by_cases hvs : vs = []
      · subst hvs; simp [getClickHouseType, isError, Except.map]
      · simp [getClickHouseType, isError, Except.map, hvs]
  all_goals simp [getClickHouseType, isError, Except.map]

/-- C5: `validateValue` raises (throws a `TypeMappingError`) exactly
when the value is null or undefined and the column is not nullable; on
every other input it returns a boolean without raising. -/
theorem validateValue_raises_iff (dp : JSValue → Bool) (v : JSValue)
    (col : ColumnDefinition) :
    isError (validateValue dp v col) = true ↔
      (isNullish v = true ∧ col.nullable = false) := by
  unfold validateValue
  by_cases h : isNullish v = true
  · cases hn : col.nullable <;> simp [h, hn, isError]
  · simp at h
    simp [h, isError]

/-- C8: the 64-bit integer branch of `fromClickHouseValue` returns a
plain number carrying the exact value whenever the wire integer lies
within the safe-integer range (between `MIN_SAFE_INTEGER` and
`MAX_SAFE_INTEGER` inclusive), and otherwise returns it as an
arbitrary-precision bigint preserving it exactly. -/
theorem fromInt64_number_iff_safe (v : Int) :
    (v ≤ maxSafeInteger ∧ minSafeInteger ≤ v →
      fromClickHouseValueInt64 v = .num (v : Rat)) ∧
    (¬(v ≤ maxSafeInteger ∧ minSafeInteger ≤ v) →
      fromClickHouseValueInt64 v = .bigint v) := by
  constructor <;> intro h <;> simp [fromClickHouseValueInt64, h]

/-- C8 witness: 42 is returned as an exact plain number, 2^60 as an
exact bigint. -/
theorem fromInt64_number_iff_safe_witness :
    fromClickHouseValueInt64 42 = .num ((42 : Int) : Rat) ∧
    fromClickHouseValueInt64 (2 ^ 60) = .bigint (2 ^ 60) :=
  ⟨(fromInt64_number_iff_safe 42).1 (by decide),
   (fromInt64_number_iff_safe (2 ^ 60)).2 (by decide)⟩

/-- C10: for `Int64`/`UInt64` columns, `validateValue` on a
non-null value returns exactly the test "the runtime type is bigint or
number" — no range or integrality check — so non-integer numbers and
numbers far outside the 64-bit range are accepted. -/
theorem validateValue_int64_no_range_check (dp : JSValue → Bool)
    (v : JSValue) (col : ColumnDefinition)
    (hty : col.type = .Int64 ∨ col.type = .UInt64)
    (hv : isNullish v = false) :
    validateValue dp v col =
      .ok (typeofVal v == "bigint" || typeofVal v == "number") := by
  unfold validateValue
  rcases hty with h | h <;> rw [h] <;> simp [hv]

/-- C10 witness: the non-integer number 7/2 is accepted for an `Int64`
column. -/
theorem validateValue_int64_no_range_check_witness :
    validateValue (fun _ => false) (.num (7 / 2)) { type := .Int64 } =
      .ok true := by
  have h := validateValue_int64_no_range_check (fun _ => false)
    (.num (7 / 2)) { type := .Int64 } (Or.inl rfl) rfl
  simpa using h

theorem identifier_of_valid (s : String) (h : isValidIdentifier s = true) :
    identifier s = .ok ("`" ++ s ++ "`") := by
  simp [identifier, h]

theorem backtick_prefixed_ne_empty (field rest : String) :
    ("`" ++ field ++ "`" ++ rest) ≠ "" := by
  intro h
  have := congrArg String.length h
  simp [String.length_append, show ("`" : String).length = 1 from rfl] at this

theorem addParams_params_length (xs : List JSValue) (st : WhereState) :
    ((addParams xs st).2).params.length = st.params.length + xs.length := by
  induction xs generalizing st with
  | nil => rfl
  | cons x rest ih =>
    simp only [addParams]
    rw [ih]
    simp [addParam]
    omega

theorem intercalate_nil (s : String) : s.intercalate [] = "" := rfl

theorem intercalate_singleton (s a : String) : s.intercalate [a] = a := rfl

/-- A one-entry condition whose key is not a logical combinator is a
field condition. -/
theorem processEntries_single_field (field : String) (v : JSValue)
    (st : WhereState)
    (hand : ¬(field = "and" ∨ field = "$and"))
    (hor : ¬(field = "or" ∨ field = "$or"))
    (hnot : ¬(field = "not" ∨ field = "$not")) :
    processEntries [(field, v)] st =
      match processFieldCondition field v st with
      | .error e => .error e
      | .ok (fc, st1) => .ok ((if fc ≠ "" then [fc] else []), st1) := by
  rw [processEntries.eq_def]
  dsimp only
  rw [if_neg hand, if_neg hor, if_neg hnot]
  cases processFieldCondition field v st with
  | error e => rfl
  | ok p =>
    obtain ⟨fc, st1⟩ := p
    simp [processEntries]

/-- Compiling a one-entry condition whose key is not a logical
combinator routes through `processFieldCondition`. -/
theorem build_single_field (start : Nat) (field : String) (v : JSValue)
    (hlog : field ∉ logicalOperatorKeys) :
    build start (.obj [(field, v)]) =
      match processFieldCondition field v ⟨start, []⟩ with
      | .error e => .error e
      | .ok (fc, st1) => .ok ((if fc = "" then "1=1" else fc), st1.params) := by
  simp only [logicalOperatorKeys, List.mem_cons, List.mem_singleton,
    List.not_mem_nil] at hlog
  push_neg at hlog
  obtain ⟨h1, h2, h3, h4, h5, h6, -⟩ := hlog
  have hpe := processEntries_single_field field v ⟨start, []⟩
    (by simp [h1, h2]) (by simp [h3, h4]) (by simp [h5, h6])
  have hpc : processCondition (.obj [(field, v)]) ⟨start, []⟩ =
      match processEntries [(field, v)] (⟨start, []⟩ : WhereState) with
      | .error e => .error e
      | .ok (parts, st1) => .ok (String.intercalate " AND " parts, st1) := rfl
  have hb : build start (.obj [(field, v)]) =
      match processCondition (.obj [(field, v)]) ⟨start, []⟩ with
      | .error e => .error e
      | .ok (sql, st) => .ok ((if sql = "" then "1=1" else sql), st.params) := rfl
  rw [hb, hpc, hpe]
  cases processFieldCondition field v ⟨start, []⟩ with
  | error e => rfl
  | ok p =>
    obtain ⟨fc, st1⟩ := p
    by_cases hempty : fc = ""
    · subst hempty
      simp [intercalate_nil]
    · simp [hempty, intercalate_singleton]

/-- A one-key object whose key is an operator-vocabulary word is
dispatched to the corresponding operator arm. -/
theorem processFieldCondition_single_op (field op : String) (v : JSValue)
    (st : WhereState) (hid : isValidIdentifier field = true)
    (hop : op ∈ validOperatorKeys) :
    processFieldCondition field (.obj [(op, v)]) st =
      match processOneOperator ("`" ++ field ++ "`") op v st with
      | .error e => .error e
      | .ok (part, st1) => .ok (part, st1) := by
  have hbrand : ("_brand" == op) = false := by
    have hne : op ≠ "_brand" := by
      intro h
      subst h
      simp [validOperatorKeys] at hop
    simp only [beq_eq_false_iff_ne, ne_eq]
    exact fun h => hne h.symm
  have hraw : isRawExpression (.obj [(op, v)]) = false := by
    simp [isRawExpression, List.lookup, hbrand]
  have hwhere : isWhereOperator (.obj [(op, v)]) = true := by
    simp [isWhereOperator, typeofVal, jsKeys]
    simpa using hop
  cases hone : processOneOperator ("`" ++ field ++ "`") op v st with
  | error e =>
    simp [processFieldCondition, identifier_of_valid field hid, hraw,
      isNullish, hwhere, objEntries, processOperators, hone]
  | ok r =>
    obtain ⟨part, st1⟩ := r
    simp [processFieldCondition, identifier_of_valid field hid, hraw,
      isNullish, hwhere, objEntries, processOperators, hone,
      intercalate_singleton]

/-- C2: compiling a field with the `in` operator and an empty array
emits the constant always-false fragment `1=0` with zero parameters
bound; `notIn` with an empty array emits the constant always-true
fragment `1=1` with zero parameters; and for arrays of any length
exactly one parameter is bound per element. -/
theorem in_notIn_empty_shortcircuit (field : String) (start : Nat)
    (hid : isValidIdentifier field = true)
    (hlog : field ∉ logicalOperatorKeys) :
    build start (.obj [(field, .obj [("in", .arr [])])]) = .ok ("1=0", []) ∧
    build start (.obj [(field, .obj [("notIn", .arr [])])]) = .ok ("1=1", []) ∧
    (∀ xs : List JSValue, ∃ sql params,
      build start (.obj [(field, .obj [("in", .arr xs)])]) = .ok (sql, params) ∧
      params.length = xs.length) ∧
    (∀ xs : List JSValue, ∃ sql params,
      build start (.obj [(field, .obj [("notIn", .arr xs)])]) =
        .ok (sql, params) ∧
      params.length = xs.length) := by
  refine ⟨?_, ?_, ?_, ?_⟩
  · rw [build_single_field start field _ hlog,
      processFieldCondition_single_op field "in" _ ⟨start, []⟩ hid
        (by simp [validOperatorKeys])]
    simp [processOneOperator]
  · rw [build_single_field start field _ hlog,
      processFieldCondition_single_op field "notIn" _ ⟨start, []⟩ hid
        (by simp [validOperatorKeys])]
    simp [processOneOperator]
  · intro xs
    rw [build_single_field start field _ hlog,
      processFieldCondition_single_op field "in" _ ⟨start, []⟩ hid
        (by simp [validOperatorKeys])]
    by_cases hxs : xs.length = 0
    · have hnil : xs = [] := List.length_eq_zero.mp hxs
      subst hnil
      exact ⟨"1=0", [], by simp [processOneOperator], rfl⟩
    · have hone : processOneOperator ("`" ++ field ++ "`") "in" (.arr xs)
          ⟨start, []⟩ =
          .ok ("`" ++ field ++ "`" ++ " IN (" ++
              String.intercalate ", " (addParams xs ⟨start, []⟩).1 ++ ")",
            (addParams xs ⟨start, []⟩).2) := by
        simp [processOneOperator, hxs]
      rw [hone]
      refine ⟨_, _, rfl, ?_⟩
      simp [addParams_params_length]
  · intro xs
    rw [build_single_field start field _ hlog,
      processFieldCondition_single_op field "notIn" _ ⟨start, []⟩ hid
        (by simp [validOperatorKeys])]
    by_cases hxs : xs.length = 0
    · have hnil : xs = [] := List.length_eq_zero.mp hxs
      subst hnil
      exact ⟨"1=1", [], by simp [processOneOperator], rfl⟩
    · have hone : processOneOperator ("`" ++ field ++ "`") "notIn" (.arr xs)
          ⟨start, []⟩ =
          .ok ("`" ++ field ++ "`" ++ " NOT IN (" ++
              String.intercalate ", " (addParams xs ⟨start, []⟩).1 ++ ")",
            (addParams xs ⟨start, []⟩).2) := by
        simp [processOneOperator, hxs]
      rw [hone]
      refine ⟨_, _, rfl, ?_⟩
      simp [addParams_params_length]

/-- C2 witness: a concrete field and inputs — empty `in` gives `1=0`
with no parameters, empty `notIn` gives `1=1` with no parameters, and a
two-element `in` array binds two parameters. -/
theorem in_notIn_empty_shortcircuit_witness :
    build 0 (.obj [("id", .obj [("in", .arr [])])]) = .ok ("1=0", []) ∧
    build 0 (.obj [("id", .obj [("notIn", .arr [])])]) = .ok ("1=1", []) ∧
    (∃ sql params,
      build 0 (.obj [("id", .obj [("in", .arr [.num 1, .num 2])])]) =
        .ok (sql, params) ∧
      params.length = 2) := by
  obtain ⟨he, hne, hcount, -⟩ :=
    in_notIn_empty_shortcircuit "id" 0 (by decide) (by decide)
  exact ⟨he, hne, hcount [.num 1, .num 2]⟩

/-- C4: `isNull` with boolean `b` and `notNull` with `not b` compile to
the same null-test polarity — `IS NULL` when `b` is true, `IS NOT NULL`
when `b` is false — and no parameter is bound in any of the four
cases. -/
theorem isNull_notNull_complementary (field : String) (start : Nat) (b : Bool)
    (hid : isValidIdentifier field = true)
    (hlog : field ∉ logicalOperatorKeys) :
    build start (.obj [(field, .obj [("isNull", .bool b)])]) =
      .ok ("`" ++ field ++ "`" ++ (if b then " IS NULL" else " IS NOT NULL"),
        []) ∧
    build start (.obj [(field, .obj [("notNull", .bool (!b))])]) =
      .ok ("`" ++ field ++ "`" ++ (if b then " IS NULL" else " IS NOT NULL"),
        []) := by
  have hne := backtick_prefixed_ne_empty field
    (if b then " IS NULL" else " IS NOT NULL")
  constructor
  · rw [build_single_field start field _ hlog,
      processFieldCondition_single_op field "isNull" _ ⟨start, []⟩ hid
        (by simp [validOperatorKeys])]
    have hone : processOneOperator ("`" ++ field ++ "`") "isNull" (.bool b)
        ⟨start, []⟩ =
        .ok ("`" ++ field ++ "`" ++
          (if b then " IS NULL" else " IS NOT NULL"), ⟨start, []⟩) := by
      cases b <;> simp [processOneOperator, truthy]
    rw [hone]
    simp [hne]
  · rw [build_single_field start field _ hlog,
      processFieldCondition_single_op field "notNull" _ ⟨start, []⟩ hid
        (by simp [validOperatorKeys])]
    have hone : processOneOperator ("`" ++ field ++ "`") "notNull" (.bool (!b))
        ⟨start, []⟩ =
        .ok ("`" ++ field ++ "`" ++
          (if b then " IS NULL" else " IS NOT NULL"), ⟨start, []⟩) := by
      cases b <;> simp [processOneOperator, truthy]
    rw [hone]
    simp [hne]

/-- C4 witness: the four concrete polarity cases for a concrete
field. -/
theorem isNull_notNull_complementary_witness :
    build 0 (.obj [("age", .obj [("isNull", .bool true)])]) =
      .ok ("`age` IS NULL", []) ∧
    build 0 (.obj [("age", .obj [("notNull", .bool false)])]) =
      .ok ("`age` IS NULL", []) ∧
    build 0 (.obj [("age", .obj [("isNull", .bool false)])]) =
      .ok ("`age` IS NOT NULL", []) ∧
    build 0 (.obj [("age", .obj [("notNull", .bool true)])]) =
      .ok ("`age` IS NOT NULL", []) := by
  obtain ⟨ht1, ht2⟩ := isNull_notNull_complementary "age" 0 true
    (by decide) (by decide)
  obtain ⟨hf1, hf2⟩ := isNull_notNull_complementary "age" 0 false
    (by decide) (by decide)
  refine ⟨?_, ?_, ?_, ?_⟩
  · simpa using ht1
  · simpa using ht2
  · simpa using hf1
  · simpa using hf2

theorem processOneOperator_unknown (fieldName op : String) (v : JSValue)
    (st : WhereState) (hop : op ∉ validOperatorKeys) :
    processOneOperator fieldName op v st =
      .error (.validation ("Unknown operator: " ++ op)) := by
  simp only [validOperatorKeys, List.mem_cons, List.mem_singleton,
    List.not_mem_nil] at hop
  push_neg at hop
  obtain ⟨h1, h2, h3, h4, h5, h6, h7, h8, h9, h10, h11, h12, h13, h14, -⟩ := hop
  simp [processOneOperator, h1, h2, h3, h4, h5, h6, h7, h8, h9, h10, h11,
    h12, h13, h14]

theorem processOperators_append (fieldName : String)
    (as bs : List (String × JSValue)) (st : WhereState) :
    processOperators fieldName (as ++ bs) st =
      match processOperators fieldName as st with
      | .error e => .error e
      | .ok (parts, st1) =>
        match processOperators fieldName bs st1 with
        | .error e => .error e
        | .ok (parts2, st2) => .ok (parts ++ parts2, st2) := by
  induction as generalizing st with
  | nil =>
    simp only [List.nil_append, processOperators]
    cases processOperators fieldName bs st with
    | error e => rfl
    | ok p =>
      obtain ⟨parts2, st2⟩ := p
      simp
  | cons hd tl ih =>
    obtain ⟨op, v⟩ := hd
    have hunf : ∀ rest st2, processOperators fieldName ((op, v) :: rest) st2 =
        match processOneOperator fieldName op v st2 with
        | .error e => .error e
        | .ok (part, st3) =>
          match processOperators fieldName rest st3 with
          | .error e => .error e
          | .ok (parts2, st4) => .ok (part :: parts2, st4) :=
      fun rest st2 => rfl
    rw [List.cons_append, hunf (tl ++ bs) st, hunf tl st]
    cases processOneOperator fieldName op v st with
    | error e => rfl
    | ok p =>
      obtain ⟨part, st1⟩ := p
      dsimp only
      rw [ih st1]
      cases processOperators fieldName tl st1 with
      | error e => rfl
      | ok q =>
        obtain ⟨parts, st2⟩ := q
        dsimp only
        cases processOperators fieldName bs st2 with
        | error e => rfl
        | ok r =>
          obtain ⟨parts2, st3⟩ := r
          simp

/-- C3 counterexample: an object whose `_brand` entry is the string
RawExpression and which also carries the vocabulary key `eq` satisfies
`isWhereOperator`, yet
the compiler treats it as a raw expression — emitting its `sql` text
verbatim, binding nothing, and raising no validation error for its
out-of-vocabulary keys `_brand` and `sql` — because the raw-expression
check runs before operator-set classification. -/
theorem raw_brand_overrides_operator_detection :
    isWhereOperator (.obj [("_brand", .str "RawExpression"),
      ("sql", .str "RAW"), ("eq", .num 1)]) = true ∧
    ("_brand" ∉ validOperatorKeys ∧ "sql" ∉ validOperatorKeys) ∧
    build 0 (.obj [("f", .obj [("_brand", .str "RawExpression"),
      ("sql", .str "RAW"), ("eq", .num 1)])]) = .ok ("RAW", []) :=
  ⟨rfl, by decide, rfl⟩

/-- C3 (amended): for every field value that is a plain object *not
branded as a raw expression* with at least one key in the operator
vocabulary, the compiler classifies the whole object as an operator
set; and whenever a key outside the vocabulary follows a cleanly
compiled prefix of operator entries, compilation raises a validation
error naming that offending key. -/
theorem operator_set_classification (field : String)
    (fs : List (String × JSValue)) (st : WhereState)
    (hid : isValidIdentifier field = true)
    (hraw : isRawExpression (.obj fs) = false)
    (hvocab : (fs.map Prod.fst).any
      (fun k => validOperatorKeys.contains k) = true) :
    processFieldCondition field (.obj fs) st =
      (match processOperators ("`" ++ field ++ "`") fs st with
        | .error e => .error e
        | .ok (parts, st1) =>
          .ok (String.intercalate " AND " parts, st1)) ∧
    (∀ pre op v post, fs = pre ++ (op, v) :: post →
      op ∉ validOperatorKeys →
      (∃ r, processOperators ("`" ++ field ++ "`") pre st = .ok r) →
      processFieldCondition field (.obj fs) st =
        .error (.validation ("Unknown operator: " ++ op))) := by
  have hwhere : isWhereOperator (.obj fs) = true := by
    simp [isWhereOperator, typeofVal, jsKeys]
    simpa using hvocab
  have hclass : processFieldCondition field (.obj fs) st =
      (match processOperators ("`" ++ field ++ "`") fs st with
        | .error e => .error e
        | .ok (parts, st1) =>
          .ok (String.intercalate " AND " parts, st1)) := by
    simp only [processFieldCondition, identifier_of_valid field hid, hraw,
      hwhere, isNullish, objEntries, Bool.false_eq_true, if_false, if_true]
  refine ⟨hclass, ?_⟩
  rintro pre op v post rfl hop ⟨⟨parts, st1⟩, hpre⟩
  rw [hclass, processOperators_append, hpre]
  dsimp only
  have hstep : processOperators ("`" ++ field ++ "`") ((op, v) :: post) st1 =
      match processOneOperator ("`" ++ field ++ "`") op v st1 with
      | .error e => .error e
      | .ok (part, st2) =>
        match processOperators ("`" ++ field ++ "`") post st2 with
        | .error e => .error e
        | .ok (parts2, st3) => .ok (part :: parts2, st3) := rfl
  rw [hstep, processOneOperator_unknown ("`" ++ field ++ "`") op v st1 hop]

/-- C3 (amended) witness: the object `{eq: 1, bogus: 2}` is classified
as an operator set and fails with a validation error naming `bogus`. -/
theorem operator_set_classification_witness :
    processFieldCondition "f" (.obj [("eq", .num 1), ("bogus", .num 2)])
      ⟨0, []⟩ =
      .error (.validation ("Unknown operator: " ++ "bogus")) :=
  (operator_set_classification "f" [("eq", .num 1), ("bogus", .num 2)]
      ⟨0, []⟩ (by decide) rfl rfl).2
    [("eq", .num 1)] "bogus" (.num 2) [] rfl (by decide) ⟨_, rfl⟩

theorem validateValue_ok_of_nonnull (dp : JSValue → Bool) (v : JSValue)
    (col : ColumnDefinition) (hv : isNullish v = false) :
    ∃ b, validateValue dp v col = .ok b := by
  unfold validateValue
  simp [hv]

theorem checkUnknownFields_ok (data : List (String × JSValue))
    (schema : SchemaDef)
    (h : ∀ p ∈ data, (schema.lookup p.1).isSome = true) :
    checkUnknownFields data schema = .ok () := by
  induction data with
  | nil => rfl
  | cons hd tl ih =>
    obtain ⟨f, v⟩ := hd
    have hh : (schema.lookup f).isSome = true := h (f, v) (by simp)
    simp only [checkUnknownFields, hh, if_true]
    exact ih (fun p hp => h p (by simp [hp]))

theorem validatePartialEntries_error_iff (dp : JSValue → Bool)
    (data : List (String × JSValue)) (schema : SchemaDef)
    (hkeys : ∀ p ∈ data, (schema.lookup p.1).isSome = true) :
    isError (validatePartialEntries dp data schema) = true ↔
      ∃ p ∈ data, ∃ col, schema.lookup p.1 = some col ∧
        (col.primaryKey = true ∨
          (isNullish p.2 = false ∧ validateValue dp p.2 col = .ok false)) := by
  induction data with
  | nil => simp [validatePartialEntries, isError]
  | cons hd tl ih =>
    obtain ⟨f, v⟩ := hd
    obtain ⟨col, hcol⟩ := Option.isSome_iff_exists.mp (hkeys (f, v) (by simp))
    have ihtl := ih (fun p hp => hkeys p (by simp [hp]))
    rw [validatePartialEntries.eq_def]
    dsimp only
    rw [hcol]
    by_cases hpk : col.primaryKey = true
    · simp only [hpk, if_true, isError, true_iff]
      exact ⟨(f, v), by simp, col, hcol, Or.inl hpk⟩
    · by_cases hnull : isNullish v = true
      · simp only [hpk, if_false, hnull, Bool.not_true, Bool.false_eq_true]
        rw [ihtl]
        constructor
        · rintro ⟨p, hp, rest⟩
          exact ⟨p, by simp [hp], rest⟩
        · rintro ⟨p, hp, col2, hcol2, hdisj⟩
          rcases List.mem_cons.mp hp with rfl | hmem
          · rw [hcol] at hcol2
            obtain rfl := Option.some_inj.mp hcol2
            rcases hdisj with h | ⟨h, -⟩
            · exact absurd h hpk
            · rw [hnull] at h
              exact absurd h (by simp)
          · exact ⟨p, hmem, col2, hcol2, hdisj⟩
      · have hnn : isNullish v = false := by
          simpa using hnull
        obtain ⟨b, hb⟩ := validateValue_ok_of_nonnull dp v col hnn
        simp only [hpk, if_false, hnn, Bool.not_false, if_true, hb,
          Bool.false_eq_true]
        cases b
        · simp only [isError, true_iff]
          exact ⟨(f, v), by simp, col, hcol, Or.inr ⟨hnn, hb⟩⟩
        · rw [ihtl]
          constructor
          · rintro ⟨p, hp, rest⟩
            exact ⟨p, by simp [hp], rest⟩
          · rintro ⟨p, hp, col2, hcol2, hdisj⟩
            rcases List.mem_cons.mp hp with rfl | hmem
            · rw [hcol] at hcol2
              obtain rfl := Option.some_inj.mp hcol2
              rcases hdisj with h | ⟨-, h⟩
              · exact absurd h hpk
              · rw [hb] at h
                simp at h
            · exact ⟨p, hmem, col2, hcol2, hdisj⟩

/-- C6: for a partial record whose keys all exist in the schema,
`validatePartialData` raises a validation error exactly when the record
contains the primary-key field (regardless of its value) or contains a
non-null value failing the validity check of its column; in particular a
null or undefined value for a non-primary-key field never fails, even
on a non-nullable column. -/
theorem validatePartialData_raises_iff (dp : JSValue → Bool)
    (data : List (String × JSValue)) (schema : SchemaDef)
    (hkeys : ∀ p ∈ data, (schema.lookup p.1).isSome = true) :
    isError (validatePartialData dp data schema) = true ↔
      ∃ p ∈ data, ∃ col, schema.lookup p.1 = some col ∧
        (col.primaryKey = true ∨
          (isNullish p.2 = false ∧ validateValue dp p.2 col = .ok false)) := by
  unfold validatePartialData
  rw [checkUnknownFields_ok data schema hkeys]
  exact validatePartialEntries_error_iff dp data schema hkeys

/-- C6 witness: a record touching only the primary-key field fails, a
record setting a non-nullable non-primary-key field to null does not,
and a record with a wrong-typed value fails. -/
theorem validatePartialData_raises_iff_witness :
    isError (validatePartialData (fun _ => false) [("id", .num 1)]
      [("id", { type := .UInt32, primaryKey := true }),
       ("name", { type := .String })]) = true ∧
    isError (validatePartialData (fun _ => false) [("name", .null)]
      [("id", { type := .UInt32, primaryKey := true }),
       ("name", { type := .String })]) = false ∧
    isError (validatePartialData (fun _ => false) [("name", .num 3)]
      [("id", { type := .UInt32, primaryKey := true }),
       ("name", { type := .String })]) = true := by
  refine ⟨?_, ?_, ?_⟩
  · rw [validatePartialData_raises_iff (fun _ => false) _ _ (by decide)]
    exact ⟨("id", .num 1), by simp, { type := .UInt32, primaryKey := true },
      rfl, Or.inl rfl⟩
  · have h := validatePartialData_raises_iff (fun _ => false) [("name", .null)]
      [("id", { type := .UInt32, primaryKey := true }),
       ("name", { type := .String })] (by decide)
    rw [Bool.eq_false_iff]
    intro hc
    obtain ⟨p, hp, col, hcol, hdisj⟩ := h.mp hc
    rcases List.mem_cons.mp hp with rfl | hmem
    · obtain rfl := Option.some_inj.mp hcol
      rcases hdisj with hd | ⟨hd, -⟩
      · exact absurd hd (by decide)
      · exact absurd hd (by decide)
    · simp at hmem
  · rw [validatePartialData_raises_iff (fun _ => false) _ _ (by decide)]
    exact ⟨("name", .num 3), by simp, { type := .String }, rfl,
      Or.inr ⟨rfl, rfl⟩⟩

/-- C7: for every table name and every schema definition with two or
more `primaryKey` columns, constructing a `TableSchema` fails — no
schema object is produced — and whenever the table name itself is
valid, the failure is the `validateSchema` error whose message lists
every offending primary-key column name. -/
theorem duplicate_primary_keys_reject (name : String) (schema : SchemaDef)
    (hpk : 2 ≤ (schema.filter (fun p => p.2.primaryKey)).length) :
    isError (mkTableSchema name schema) = true ∧
    (validateTableName name = .ok () →
      mkTableSchema name schema =
        .error ("Multiple primary keys found: " ++
          String.intercalate ", "
            ((schema.filter (fun p => p.2.primaryKey)).map Prod.fst) ++
          ". Only one primary key is allowed.")) := by
  have hlen : schema.length ≠ 0 := by
    have hle := List.length_filter_le (fun p => p.2.primaryKey) schema
    omega
  have hvs : validateSchema schema =
      .error ("Multiple primary keys found: " ++
        String.intercalate ", "
          ((schema.filter (fun p => p.2.primaryKey)).map Prod.fst) ++
        ". Only one primary key is allowed.") := by
    have hgt : ((schema.filter (fun p => p.2.primaryKey)).map Prod.fst).length > 1 := by
      rw [List.length_map]
      omega
    simp only [validateSchema, hlen, if_false]
    rw [if_pos hgt]
  constructor
  · unfold mkTableSchema
    cases validateTableName name with
    | error e => rfl
    | ok u =>
      cases u
      dsimp only
      rw [hvs]
      rfl
  · intro h
    unfold mkTableSchema
    rw [h, hvs]

/-- C7 witness: a two-primary-key schema is rejected with a message
listing both offending column names, and no schema object exists. -/
theorem duplicate_primary_keys_reject_witness :
    isError (mkTableSchema "users"
      [("a", { type := .UInt32, primaryKey := true }),
       ("b", { type := .UInt32, primaryKey := true })]) = true ∧
    mkTableSchema "users"
      [("a", { type := .UInt32, primaryKey := true }),
       ("b", { type := .UInt32, primaryKey := true })] =
      .error
        "Multiple primary keys found: a, b. Only one primary key is allowed." := by
  obtain ⟨h1, h2⟩ := duplicate_primary_keys_reject "users"
    [("a", { type := .UInt32, primaryKey := true }),
     ("b", { type := .UInt32, primaryKey := true })] (by decide)
  exact ⟨h1, (h2 rfl).trans (by rfl)⟩

end ClickORM
